import Mathlib

/-!
Shallow embedding of the badminton match tracker and tournament pairer
(`badminton_tracker.py`, `tournament_pairer.py`).

The embedding covers:
* the durable JSON store and its date round-trip (`load_data` / `save_data`),
* the tracker state operations (`add_player`, `record_match`, `update_ratings`),
* the pairing generator (`TournamentPairer.generate_pairings`).

Python floats are modelled by real numbers (the Elo formula uses a real
power), JSON numbers read back unchanged are modelled by rationals, and
Python integers by `Int` / `Nat`.
-/

/- ### Dates (model of the `datetime` values stored in match records) -/

/-- Model of a naive `datetime.datetime` value: the calendar and clock
fields carried by a timestamp, without a timezone (the tracker only ever
stores `datetime.now()`, which is naive). -/
structure DateTime where
  year : ℕ
  month : ℕ
  day : ℕ
  hour : ℕ
  minute : ℕ
  second : ℕ
  microsecond : ℕ
deriving DecidableEq

/-- Gregorian leap-year rule, as used by `datetime` for day-of-month
validation. -/
def isLeapYear (y : ℕ) : Bool :=
  y % 4 == 0 && (y % 100 != 0 || y % 400 == 0)

/-- Number of days in a month, as validated by the `datetime` constructor. -/
def daysInMonth (y m : ℕ) : ℕ :=
  if m = 2 then (if isLeapYear y then 29 else 28)
  else if m = 4 ∨ m = 6 ∨ m = 9 ∨ m = 11 then 30
  else 31

/-- Field ranges accepted by the `datetime.datetime` constructor
(`MINYEAR = 1`, `MAXYEAR = 9999`). -/
def isValidDT (d : DateTime) : Bool :=
  decide (1 ≤ d.year ∧ d.year ≤ 9999 ∧ 1 ≤ d.month ∧ d.month ≤ 12 ∧
    1 ≤ d.day ∧ d.day ≤ daysInMonth d.year d.month ∧
    d.hour ≤ 23 ∧ d.minute ≤ 59 ∧ d.second ≤ 59 ∧ d.microsecond ≤ 999999)

/-- Two decimal digits with leading zero, the printf pattern used by
`datetime.isoformat` for month, day, hour, minute and second (all of which
are below 100 on valid datetimes). -/
def pad2 (n : ℕ) : List Char :=
  [Nat.digitChar (n / 10), Nat.digitChar (n % 10)]

/-- Four decimal digits with leading zeros, the year field of
`datetime.isoformat` (years are at most 9999). -/
def pad4 (n : ℕ) : List Char :=
  pad2 (n / 100) ++ pad2 (n % 100)

/-- Six decimal digits with leading zeros, the microsecond field of
`datetime.isoformat` (microseconds are below 1000000). -/
def pad6 (n : ℕ) : List Char :=
  pad2 (n / 10000) ++ pad2 (n / 100 % 100) ++ pad2 (n % 100)

/-- Characters of `datetime.isoformat()` on a naive datetime:
`YYYY-MM-DDTHH:MM:SS`, followed by `.ffffff` exactly when the microsecond
field is nonzero. -/
def isoformatChars (d : DateTime) : List Char :=
  pad4 d.year ++ '-' :: pad2 d.month ++ '-' :: pad2 d.day ++
  'T' :: pad2 d.hour ++ ':' :: pad2 d.minute ++ ':' :: pad2 d.second ++
  (if d.microsecond = 0 then [] else '.' :: pad6 d.microsecond)

/-- Model of `datetime.isoformat()` on a naive datetime. -/
def isoformat (d : DateTime) : String :=
  String.mk (isoformatChars d)

/-- Read exactly two decimal digits from the front of a character list. -/
def parse2 : List Char → Option (ℕ × List Char)
  | a :: b :: rest =>
    if a.isDigit && b.isDigit then
      some ((a.toNat - 48) * 10 + (b.toNat - 48), rest)
    else none
  | _ => none

/-- Read exactly four decimal digits from the front of a character list. -/
def parse4 (cs : List Char) : Option (ℕ × List Char) :=
  match parse2 cs with
  | none => none
  | some (hi, r) =>
    match parse2 r with
    | none => none
    | some (lo, r2) => some (hi * 100 + lo, r2)

/-- Consume one expected character. -/
def expectChar (c : Char) : List Char → Option (List Char)
  | a :: rest => if a = c then some rest else none
  | [] => none

/-- Decimal value of a digit string, accumulator style. -/
def digitsVal : ℕ → List Char → ℕ
  | acc, [] => acc
  | acc, c :: cs => digitsVal (acc * 10 + (c.toNat - 48)) cs

/-- Fractional-second suffix of `datetime.fromisoformat`: either absent
(microsecond 0) or a dot followed by exactly three or exactly six digits. -/
def parseFrac : List Char → Option ℕ
  | [] => some 0
  | '.' :: ds =>
    if ds.length == 3 && ds.all Char.isDigit then some (digitsVal 0 ds * 1000)
    else if ds.length == 6 && ds.all Char.isDigit then some (digitsVal 0 ds)
    else none
  | _ => none

/-- Range validation performed by the `datetime` constructor at the end of
parsing. -/
def checkValid (d : DateTime) : Option DateTime :=
  if isValidDT d then some d else none

/-- Model of `datetime.fromisoformat` on the shapes relevant to the
tracker's store: a `YYYY-MM-DD` date, optionally followed by one separator
character (any character, as in CPython) and a `HH:MM:SS` time with an
optional fractional-second suffix of three or six digits. Timezone
suffixes and times truncated to `HH` or `HH:MM` are outside the model. -/
def fromisoformatChars (cs : List Char) : Option DateTime :=
  match parse4 cs with
  | none => none
  | some (y, r1) =>
  match expectChar '-' r1 with
  | none => none
  | some r2 =>
  match parse2 r2 with
  | none => none
  | some (mo, r3) =>
  match expectChar '-' r3 with
  | none => none
  | some r4 =>
  match parse2 r4 with
  | none => none
  | some (dd, r5) =>
  match r5 with
  | [] => checkValid ⟨y, mo, dd, 0, 0, 0, 0⟩
  | _ :: r6 =>
    match parse2 r6 with
    | none => none
    | some (hh, r7) =>
    match expectChar ':' r7 with
    | none => none
    | some r8 =>
    match parse2 r8 with
    | none => none
    | some (mi, r9) =>
    match expectChar ':' r9 with
    | none => none
    | some r10 =>
    match parse2 r10 with
    | none => none
    | some (ss, r11) =>
    match parseFrac r11 with
    | none => none
    | some micro => checkValid ⟨y, mo, dd, hh, mi, ss, micro⟩

/-- Model of `datetime.fromisoformat` on strings. -/
def fromisoformat (s : String) : Option DateTime :=
  fromisoformatChars s.data

/- ### Durable store (model of the JSON file consumed and produced by
`BadmintonTracker.load_data` / `BadmintonTracker.save_data`) -/

/-- One entry of the `players` mapping as stored on disk: a JSON object
with `rating`, `matches` and `wins`. JSON numbers are modelled by exact
rationals and integers; they pass through load and save unchanged. -/
structure StoredPlayer where
  rating : ℚ
  «matches» : ℤ
  wins : ℤ
deriving DecidableEq

/-- One entry of the `matches` sequence as stored on disk; the `date`
field is an ISO-8601 string. -/
structure StoredMatch where
  date : String
  team1_players : String × String
  team2_players : String × String
  team1_score : ℤ
  team2_score : ℤ
deriving DecidableEq

/-- The durable store: the two top-level fields of the JSON file, with the
`players` mapping kept in insertion order. -/
structure StoredStore where
  players : List (String × StoredPlayer)
  «matches» : List StoredMatch
deriving DecidableEq

/-- An in-memory match record after `load_data`: the `date` string has been
replaced by a parsed datetime, the other fields are untouched. -/
structure MemMatch where
  date : DateTime
  team1_players : String × String
  team2_players : String × String
  team1_score : ℤ
  team2_score : ℤ
deriving DecidableEq

/-- The in-memory state built by `load_data`: `self.players` taken verbatim
from the file, `self.matches` with parsed dates. -/
structure MemStore where
  players : List (String × StoredPlayer)
  «matches» : List MemMatch
deriving DecidableEq

/-- The date-conversion loop of `BadmintonTracker.load_data`: each match
record has its `date` string parsed with `datetime.fromisoformat`; the
first unparseable date aborts the load (a raised `ValueError`). -/
def loadMatches : List StoredMatch → Option (List MemMatch)
  | [] => some []
  | m :: rest =>
    match fromisoformat m.date with
    | none => none
    | some d =>
      match loadMatches rest with
      | none => none
      | some ms =>
        some (⟨d, m.team1_players, m.team2_players, m.team1_score, m.team2_score⟩ :: ms)

/-- Embedding of `BadmintonTracker.load_data` on an existing store:
`self.players` is taken as-is from the file and the match dates are
converted from strings to datetimes. -/
def load_data (st : StoredStore) : Option MemStore :=
  match loadMatches st.«matches» with
  | none => none
  | some ms => some ⟨st.players, ms⟩

/-- Embedding of `BadmintonTracker.save_data`: players are written as-is;
each match is copied with its `date` re-serialized by
`datetime.isoformat`. -/
def save_data (m : MemStore) : StoredStore :=
  ⟨m.players,
   m.«matches».map (fun mm =>
     ⟨isoformat mm.date, mm.team1_players, mm.team2_players,
      mm.team1_score, mm.team2_score⟩)⟩

/- ### Tracker state (model of the running `BadmintonTracker`) -/

/-- In-memory player statistics: `rating` is a Python float (modelled as a
real number, since the Elo update takes a real power of 10), `matches` and
`wins` are non-negative counters. -/
structure Player where
  rating : ℝ
  «matches» : ℕ
  wins : ℕ

/-- The `self.players` dict: an insertion-ordered association list with
unique keys. -/
abbrev Players := List (String × Player)

/-- Dict lookup `self.players[name]`, with `none` for a missing key. -/
def lookupP : Players → String → Option Player
  | [], _ => none
  | q :: rest, n => if q.1 = n then some q.2 else lookupP rest n

/-- An in-memory match record appended by `record_match`. -/
structure MatchRec where
  date : DateTime
  team1_players : String × String
  team2_players : String × String
  team1_score : ℤ
  team2_score : ℤ

/-- The mutable state of a running `BadmintonTracker`: the players dict,
the match list, and a counter of persistence writes (each call of
`save_data` rewrites the whole JSON file; the byte-level content is
modelled separately by `save_data` above). -/
structure TrackerState where
  players : Players
  «matches» : List MatchRec
  saves : ℕ

/-- Effect of one `self.save_data()` call on the tracker state: one more
full-snapshot write to the durable file. -/
def persistSnapshot (st : TrackerState) : TrackerState :=
  { st with saves := st.saves + 1 }

/-- Embedding of `BadmintonTracker.add_player`: if the name is absent, a
fresh entry with rating 1500, no matches and no wins is appended, the
snapshot is persisted and `True` is returned; otherwise `False` is
returned and nothing changes. -/
def add_player (st : TrackerState) (name : String) : Bool × TrackerState :=
  if (lookupP st.players name).isSome then (false, st)
  else (true, persistSnapshot
    { st with players := st.players ++ [(name, ⟨1500, 0, 0⟩)] })

/-- Update of one key of the players dict: the entry with the given name
(unique, by the dict invariant) is replaced by the image under `f`. -/
def updF (ps : Players) (n : String) (f : Player → Player) : Players :=
  ps.map (fun q => if q.1 = n then (q.1, f q.2) else q)

/-- One `self.players[p]["rating"] += d` step. -/
def addRating (ps : Players) (n : String) (d : ℝ) : Players :=
  updF ps n (fun p => ⟨p.rating + d, p.«matches», p.wins⟩)

/-- One `self.players[p]["matches"] += 1` step. -/
def addMatchCount (ps : Players) (n : String) : Players :=
  updF ps n (fun p => ⟨p.rating, p.«matches» + 1, p.wins⟩)

/-- One `self.players[p]["wins"] += 1` step. -/
def addWin (ps : Players) (n : String) : Players :=
  updF ps n (fun p => ⟨p.rating, p.«matches», p.wins + 1⟩)

/-- Rating of a player as read by the engine (`self.players[p]["rating"]`);
the default 0 is never reached at call sites, which only look up present
keys. -/
def rating0 (ps : Players) (n : String) : ℝ :=
  ((lookupP ps n).map Player.rating).getD 0

/-- Match counter of a player, with default 0 for absent keys. -/
def matches0 (ps : Players) (n : String) : ℕ :=
  ((lookupP ps n).map Player.«matches»).getD 0

/-- Win counter of a player, with default 0 for absent keys. -/
def wins0 (ps : Players) (n : String) : ℕ :=
  ((lookupP ps n).map Player.wins).getD 0

/-- Sum of all ratings in the players dict. -/
def totalRating (ps : Players) : ℝ :=
  (ps.map (fun q => q.2.rating)).sum

/-- The Elo expectation of `update_ratings`:
`expected_team1 = 1 / (1 + 10 ** ((team2_rating - team1_rating) / 400))`. -/
noncomputable def expected_team1 (r1 r2 : ℝ) : ℝ :=
  1 / (1 + (10 : ℝ) ^ ((r2 - r1) / 400))

/-- The scalar `rating_change = K * (actual_score - expected_team1)` with
`K = 32` and `actual_score` 1 when team1 won, else 0. -/
noncomputable def rating_change (r1 r2 : ℝ) (won : Bool) : ℝ :=
  32 * ((if won then 1 else 0) - expected_team1 r1 r2)

/-- Team strength as computed by `update_ratings`: the sum of the two
member ratings divided by 2. -/
noncomputable def teamRating (ps : Players) (t : String × String) : ℝ :=
  (rating0 ps t.1 + rating0 ps t.2) / 2

/-- Embedding of `BadmintonTracker.update_ratings`: both team strengths are
read from the current dict, then `rating_change` is added to each team1
member and subtracted from each team2 member, in source order. -/
noncomputable def update_ratings (st : TrackerState) (t1 t2 : String × String)
    (won : Bool) : TrackerState :=
  let rc := rating_change (teamRating st.players t1) (teamRating st.players t2) won
  { st with players :=
      addRating (addRating (addRating (addRating st.players t1.1 rc) t1.2 rc)
        t2.1 (-rc)) t2.2 (-rc) }

/-- The strict win test of `record_match`: `team1_won = team1_score > team2_score`. -/
def team1_won (s1 s2 : ℤ) : Bool :=
  decide (s2 < s1)

/-- The participant loop at the top of `record_match`: any missing player
is created through `add_player` (which itself re-checks absence, so the
composite effect is exactly one conditional insert per name). -/
def ensurePlayers (st : TrackerState) (names : List String) : TrackerState :=
  names.foldl (fun s n => (add_player s n).2) st

/-- Appending the match record built by `record_match`; the timestamp is
the `datetime.now()` value passed in by the caller of the embedding. -/
def appendMatch (st : TrackerState) (now : DateTime) (t1 t2 : String × String)
    (s1 s2 : ℤ) : TrackerState :=
  { st with «matches» := st.«matches» ++ [⟨now, t1, t2, s1, s2⟩] }

/-- The `matches += 1` loop of `record_match`, over team1 then team2. -/
def applyMatchCounts (st : TrackerState) (t1 t2 : String × String) : TrackerState :=
  { st with players :=
      addMatchCount (addMatchCount (addMatchCount (addMatchCount st.players t1.1)
        t1.2) t2.1) t2.2 }

/-- The `wins += 1` loop of `record_match`, over the winning team. -/
def applyWins (st : TrackerState) (team : String × String) : TrackerState :=
  { st with players := addWin (addWin st.players team.1) team.2 }

/-- Embedding of `BadmintonTracker.record_match`: ensure the four
participants exist, append the match record, bump the match counters, bump
the winners win counters, update the ratings, persist. -/
noncomputable def record_match (st : TrackerState) (now : DateTime)
    (t1 t2 : String × String) (s1 s2 : ℤ) : TrackerState :=
  persistSnapshot
    (update_ratings
      (applyWins
        (applyMatchCounts
          (appendMatch (ensurePlayers st [t1.1, t1.2, t2.1, t2.2]) now t1 t2 s1 s2)
          t1 t2)
        (if team1_won s1 s2 then t1 else t2))
      t1 t2 (team1_won s1 s2))

/- ### Pairing generator (model of `TournamentPairer`) -/

/-- Player statistics as read by the pairer from the JSON file; only the
rating is consulted, as an exact JSON number. -/
structure PlayerData where
  rating : ℚ
  «matches» : ℤ
  wins : ℤ
deriving DecidableEq

/-- The sort at the top of `generate_pairings`: Python `sorted` with key
`rating` and `reverse=True` is a stable descending sort, which over a total
preorder has the same output as a stable merge sort with the flipped
comparison. -/
def sortPlayers (ps : List (String × PlayerData)) : List (String × PlayerData) :=
  ps.mergeSort (fun a b => decide (b.2.rating ≤ a.2.rating))

/-- Failure modes of the pairing generator: the explicit `ValueError` for
too few players, and the `IndexError` a `pop` on an empty pool would raise
(proved unreachable). -/
inductive PairError where
  | insufficientPlayers
  | indexError
deriving DecidableEq

/-- One generated match: two teams of two player names. -/
abbrev Pairing := (String × String) × (String × String)

/-- One `pop` of the selection loop: `pop(0)` from the front when the
current pool length is even, `pop()` from the back when it is odd. -/
def popSelect {α : Type} (pool : List α) : Option (α × List α) :=
  if pool.length % 2 = 0 then
    match pool with
    | [] => none
    | p :: rest => some (p, rest)
  else
    match pool.reverse with
    | [] => none
    | p :: rest => some (p, rest.reverse)

/-- The inner `for _ in range(4)` loop: four parity-keyed pops in
sequence, returning the draws in order together with the remaining pool. -/
def drawFour {α : Type} (pool : List α) : Option ((α × α × α × α) × List α) :=
  match popSelect pool with
  | none => none
  | some (p0, r0) =>
  match popSelect r0 with
  | none => none
  | some (p1, r1) =>
  match popSelect r1 with
  | none => none
  | some (p2, r2) =>
  match popSelect r2 with
  | none => none
  | some (p3, r3) => some ((p0, p1, p2, p3), r3)

/-- The outer `for _ in range(num_matches)` loop: each iteration draws four
players and forms `team1 = (team_players[0], team_players[3])`,
`team2 = (team_players[1], team_players[2])` from their names. -/
def pairLoop : ℕ → List (String × PlayerData) → Option (List Pairing)
  | 0, _ => some []
  | n + 1, pool =>
    match drawFour pool with
    | none => none
    | some ((p0, p1, p2, p3), rest) =>
      match pairLoop n rest with
      | none => none
      | some tail => some (((p0.1, p3.1), (p1.1, p2.1)) :: tail)

/-- Embedding of `TournamentPairer.generate_pairings`: raise the
insufficient-players `ValueError` when `len(self.players) < num_matches * 4`,
otherwise run the selection loop over the rating-sorted pool. -/
def generate_pairings (players : List (String × PlayerData))
    (num_matches : ℤ) : Except PairError (List Pairing) :=
  if (players.length : ℤ) < num_matches * 4 then
    Except.error PairError.insufficientPlayers
  else
    match pairLoop num_matches.toNat (sortPlayers players) with
    | some teams => Except.ok teams
    | none => Except.error PairError.indexError

/-- All player names drawn into a list of pairings, four per match. -/
def flattenPairings : List Pairing → List String
  | [] => []
  | pr :: L => pr.1.1 :: pr.1.2 :: pr.2.1 :: pr.2.2 :: flattenPairings L

/- ### Spec-side pairing algorithm (for the refinement claim) -/

/-- Spec-side pop rule, written from the specification text: if the pool
length is currently even, pop from the front (current strongest remaining);
if odd, pop from the back (current weakest remaining). -/
def specPop (pool : List String) : Option (String × List String) :=
  if pool.length % 2 = 0 then
    match pool with
    | [] => none
    | p :: rest => some (p, rest)
  else
    match pool.reverse with
    | [] => none
    | p :: rest => some (p, rest.reverse)

/-- Spec-side draw of one match, written from the specification text:
check parity, pop one, repeat four times; label the draws p0, p1, p2, p3
in draw order; form team1 = (p0, p3) and team2 = (p1, p2). -/
def specDrawMatch (pool : List String) : Option (Pairing × List String) :=
  match specPop pool with
  | none => none
  | some (p0, r0) =>
  match specPop r0 with
  | none => none
  | some (p1, r1) =>
  match specPop r1 with
  | none => none
  | some (p2, r2) =>
  match specPop r2 with
  | none => none
  | some (p3, r3) => some (((p0, p3), (p1, p2)), r3)

/-- Spec-side generator: N matches drawn in sequence from a pool of player
identifiers sorted descending by rating. -/
def spec_pairings : ℕ → List String → Option (List Pairing)
  | 0, _ => some []
  | n + 1, pool =>
    match specDrawMatch pool with
    | none => none
    | some (pr, rest) =>
      match spec_pairings n rest with
      | none => none
      | some tail => some (pr :: tail)

/- ### Example fixtures used by concrete instantiations -/

/-- Four registered players, all at the initial rating. -/
def exPlayers : Players :=
  [("Alice", ⟨1500, 0, 0⟩), ("Bob", ⟨1500, 0, 0⟩),
   ("Carol", ⟨1500, 0, 0⟩), ("Dave", ⟨1500, 0, 0⟩)]

/-- A tracker state holding the four example players. -/
def exState : TrackerState := ⟨exPlayers, [], 0⟩

/-- A tracker state with no players. -/
def exEmpty : TrackerState := ⟨[], [], 0⟩

/-- A concrete timestamp. -/
def exDate : DateTime := ⟨2024, 1, 2, 3, 4, 5, 0⟩

/-- Team 1 of the example match. -/
def exT1 : String × String := ("Alice", "Bob")

/-- Team 2 of the example match. -/
def exT2 : String × String := ("Carol", "Dave")

/- ### Lemmas on the players dict -/

theorem updF_cons (q : String × Player) (rest : Players) (n : String)
    (f : Player → Player) :
    updF (q :: rest) n f = (if q.1 = n then (q.1, f q.2) else q) :: updF rest n f := rfl

theorem lookupP_updF (ps : Players) (n : String) (f : Player → Player) (m : String) :
    lookupP (updF ps n f) m = if m = n then (lookupP ps m).map f else lookupP ps m := by
  induction ps with
  | nil => by_cases h : m = n <;> simp [updF, lookupP, h]
  | cons q rest ih =>
    rw [updF_cons]
    by_cases hq : q.1 = n
    · by_cases hm : q.1 = m
      · have hmn : m = n := hm ▸ hq
        subst hmn
        simp [lookupP, hq, hm]
      · have hmn : ¬ (m = n) := fun h => hm (hq.trans h.symm)
        have hnm : ¬ (n = m) := fun h => hmn h.symm
        simp [lookupP, hq, hm, hmn, hnm, ih]
    · by_cases hm : q.1 = m
      · have hmn : ¬ (m = n) := fun h => hq (hm.trans h)
        simp [lookupP, hq, hm, hmn]
      · simp [lookupP, hq, hm, ih]

theorem map_fst_updF (ps : Players) (n : String) (f : Player → Player) :
    (updF ps n f).map Prod.fst = ps.map Prod.fst := by
  induction ps with
  | nil => rfl
  | cons q rest ih =>
    rw [updF_cons]
    by_cases hq : q.1 = n <;> simp [hq, ih]

theorem isSome_lookupP_updF (ps : Players) (n : String) (f : Player → Player) (m : String) :
    (lookupP (updF ps n f) m).isSome = (lookupP ps m).isSome := by
  rw [lookupP_updF]
  by_cases h : m = n
  · cases lookupP ps m <;> simp [h]
  · simp [h]

theorem updF_of_not_mem (ps : Players) (n : String) (f : Player → Player)
    (h : n ∉ ps.map Prod.fst) : updF ps n f = ps := by
  induction ps with
  | nil => rfl
  | cons q rest ih =>
    simp only [List.map_cons, List.mem_cons] at h
    push_neg at h
    have h1 : q.1 ≠ n := fun hh => h.1 hh.symm
    rw [updF_cons, if_neg h1, ih h.2]

theorem lookupP_of_not_mem (ps : Players) (n : String)
    (h : n ∉ ps.map Prod.fst) : lookupP ps n = none := by
  induction ps with
  | nil => rfl
  | cons q rest ih =>
    simp only [List.map_cons, List.mem_cons] at h
    push_neg at h
    have h1 : q.1 ≠ n := fun hh => h.1 hh.symm
    simp [lookupP, h1]
    exact ih h.2

theorem totalRating_cons (q : String × Player) (rest : Players) :
    totalRating (q :: rest) = q.2.rating + totalRating rest := by
  simp [totalRating]

theorem totalRating_updF (n : String) (f : Player → Player) :
    ∀ (ps : Players) (p : Player), (ps.map Prod.fst).Nodup → lookupP ps n = some p →
      totalRating (updF ps n f) = totalRating ps - p.rating + (f p).rating := by
  intro ps
  induction ps with
  | nil => intro p _ hp; simp [lookupP] at hp
  | cons q rest ih =>
    intro p hnd hp
    simp only [List.map_cons, List.nodup_cons] at hnd
    rw [updF_cons]
    by_cases hq : q.1 = n
    · have hpq : q.2 = p := by simpa [lookupP, hq] using hp
      have hrest : updF rest n f = rest :=
        updF_of_not_mem rest n f (hq ▸ hnd.1)
      rw [if_pos hq, hrest, totalRating_cons, totalRating_cons, hpq]
      ring
    · have hp' : lookupP rest n = some p := by simpa [lookupP, hq] using hp
      rw [if_neg hq, totalRating_cons, totalRating_cons, ih p hnd.2 hp']
      ring

theorem totalRating_addRating (ps : Players) (n : String) (d : ℝ)
    (hnd : (ps.map Prod.fst).Nodup) (h : (lookupP ps n).isSome) :
    totalRating (addRating ps n d) = totalRating ps + d := by
  obtain ⟨p, hp⟩ := Option.isSome_iff_exists.mp h
  rw [addRating, totalRating_updF n _ ps p hnd hp]
  ring

theorem rating0_addRating_self (ps : Players) (n : String) (d : ℝ)
    (h : (lookupP ps n).isSome) :
    rating0 (addRating ps n d) n = rating0 ps n + d := by
  obtain ⟨p, hp⟩ := Option.isSome_iff_exists.mp h
  simp [rating0, addRating, lookupP_updF, hp]

theorem rating0_addRating_ne (ps : Players) (n : String) (d : ℝ) (m : String)
    (h : m ≠ n) : rating0 (addRating ps n d) m = rating0 ps m := by
  simp [rating0, addRating, lookupP_updF, h]

theorem rating0_addMatchCount (ps : Players) (n m : String) :
    rating0 (addMatchCount ps n) m = rating0 ps m := by
  by_cases h : m = n
  · subst h
    cases ho : lookupP ps m <;> simp [rating0, addMatchCount, lookupP_updF, ho]
  · simp [rating0, addMatchCount, lookupP_updF, h]

theorem rating0_addWin (ps : Players) (n m : String) :
    rating0 (addWin ps n) m = rating0 ps m := by
  by_cases h : m = n
  · subst h
    cases ho : lookupP ps m <;> simp [rating0, addWin, lookupP_updF, ho]
  · simp [rating0, addWin, lookupP_updF, h]

theorem matches0_addRating (ps : Players) (n : String) (d : ℝ) (m : String) :
    matches0 (addRating ps n d) m = matches0 ps m := by
  by_cases h : m = n
  · subst h
    cases ho : lookupP ps m <;> simp [matches0, addRating, lookupP_updF, ho]
  · simp [matches0, addRating, lookupP_updF, h]

theorem matches0_addWin (ps : Players) (n m : String) :
    matches0 (addWin ps n) m = matches0 ps m := by
  by_cases h : m = n
  · subst h
    cases ho : lookupP ps m <;> simp [matches0, addWin, lookupP_updF, ho]
  · simp [matches0, addWin, lookupP_updF, h]

theorem matches0_addMatchCount_self (ps : Players) (n : String)
    (h : (lookupP ps n).isSome) :
    matches0 (addMatchCount ps n) n = matches0 ps n + 1 := by
  obtain ⟨p, hp⟩ := Option.isSome_iff_exists.mp h
  simp [matches0, addMatchCount, lookupP_updF, hp]

theorem matches0_addMatchCount_ne (ps : Players) (n m : String) (h : m ≠ n) :
    matches0 (addMatchCount ps n) m = matches0 ps m := by
  simp [matches0, addMatchCount, lookupP_updF, h]

theorem wins0_addRating (ps : Players) (n : String) (d : ℝ) (m : String) :
    wins0 (addRating ps n d) m = wins0 ps m := by
  by_cases h : m = n
  · subst h
    cases ho : lookupP ps m <;> simp [wins0, addRating, lookupP_updF, ho]
  · simp [wins0, addRating, lookupP_updF, h]

theorem wins0_addMatchCount (ps : Players) (n m : String) :
    wins0 (addMatchCount ps n) m = wins0 ps m := by
  by_cases h : m = n
  · subst h
    cases ho : lookupP ps m <;> simp [wins0, addMatchCount, lookupP_updF, ho]
  · simp [wins0, addMatchCount, lookupP_updF, h]

theorem wins0_addWin_self (ps : Players) (n : String)
    (h : (lookupP ps n).isSome) :
    wins0 (addWin ps n) n = wins0 ps n + 1 := by
  obtain ⟨p, hp⟩ := Option.isSome_iff_exists.mp h
  simp [wins0, addWin, lookupP_updF, hp]

theorem wins0_addWin_ne (ps : Players) (n m : String) (h : m ≠ n) :
    wins0 (addWin ps n) m = wins0 ps m := by
  simp [wins0, addWin, lookupP_updF, h]

theorem lookupP_append_last_self (ps : Players) (n : String) (v : Player)
    (h : lookupP ps n = none) : lookupP (ps ++ [(n, v)]) n = some v := by
  induction ps with
  | nil => simp [lookupP]
  | cons q rest ih =>
    by_cases hq : q.1 = n
    · simp [lookupP, hq] at h
    · have h' : lookupP rest n = none := by simpa [lookupP, hq] using h
      simpa [lookupP, hq] using ih h'

theorem lookupP_append_last_ne (ps : Players) (n : String) (v : Player) (m : String)
    (h : m ≠ n) : lookupP (ps ++ [(n, v)]) m = lookupP ps m := by
  induction ps with
  | nil =>
    have hn : ¬ (n = m) := fun hh => h hh.symm
    simp [lookupP, hn]
  | cons q rest ih =>
    by_cases hq : q.1 = m <;> simp [lookupP, hq, ih]

theorem add_player_of_present (st : TrackerState) (n : String)
    (h : (lookupP st.players n).isSome) : add_player st n = (false, st) := by
  simp [add_player, h]

theorem ensurePlayers_of_present (st : TrackerState) (names : List String)
    (h : ∀ x ∈ names, (lookupP st.players x).isSome) : ensurePlayers st names = st := by
  induction names with
  | nil => rfl
  | cons a rest ih =>
    have ha : add_player st a = (false, st) :=
      add_player_of_present st a (h a (List.mem_cons_self a rest))
    have : ensurePlayers st (a :: rest) = ensurePlayers ((add_player st a).2) rest := rfl
    rw [this, ha]
    exact ih (fun x hx => h x (List.mem_cons_of_mem a hx))

/- ### Lemmas on the Elo formula -/

theorem expected_team1_self (r : ℝ) : expected_team1 r r = 1 / 2 := by
  unfold expected_team1
  rw [sub_self, zero_div, Real.rpow_zero]
  norm_num

theorem rating_change_self_true (r : ℝ) : rating_change r r true = 16 := by
  unfold rating_change
  rw [expected_team1_self]
  norm_num

theorem rating_change_self_false (r : ℝ) : rating_change r r false = -16 := by
  unfold rating_change
  rw [expected_team1_self]
  norm_num

theorem expected_team1_pos (r1 r2 : ℝ) : 0 < expected_team1 r1 r2 := by
  unfold expected_team1
  have h : (0 : ℝ) < (10 : ℝ) ^ ((r2 - r1) / 400) :=
    Real.rpow_pos_of_pos (by norm_num) _
  positivity

theorem rating_change_false_neg (r1 r2 : ℝ) : rating_change r1 r2 false < 0 := by
  unfold rating_change
  have h := expected_team1_pos r1 r2
  simp
  linarith

/- ### State plumbing lemmas -/

theorem persistSnapshot_players (st : TrackerState) :
    (persistSnapshot st).players = st.players := rfl

theorem appendMatch_players (st : TrackerState) (now : DateTime)
    (t1 t2 : String × String) (s1 s2 : ℤ) :
    (appendMatch st now t1 t2 s1 s2).players = st.players := rfl

theorem applyMatchCounts_players (st : TrackerState) (t1 t2 : String × String) :
    (applyMatchCounts st t1 t2).players =
      addMatchCount (addMatchCount (addMatchCount (addMatchCount st.players t1.1)
        t1.2) t2.1) t2.2 := rfl

theorem applyWins_players (st : TrackerState) (team : String × String) :
    (applyWins st team).players = addWin (addWin st.players team.1) team.2 := rfl

theorem update_ratings_players (st : TrackerState) (t1 t2 : String × String) (won : Bool) :
    (update_ratings st t1 t2 won).players =
      addRating (addRating (addRating (addRating st.players t1.1
          (rating_change (teamRating st.players t1) (teamRating st.players t2) won))
        t1.2 (rating_change (teamRating st.players t1) (teamRating st.players t2) won))
        t2.1 (-(rating_change (teamRating st.players t1) (teamRating st.players t2) won)))
        t2.2 (-(rating_change (teamRating st.players t1) (teamRating st.players t2) won)) := rfl

theorem map_fst_addRating (ps : Players) (n : String) (d : ℝ) :
    (addRating ps n d).map Prod.fst = ps.map Prod.fst := map_fst_updF ps n _

theorem isSome_addRating (ps : Players) (n : String) (d : ℝ) (m : String) :
    (lookupP (addRating ps n d) m).isSome = (lookupP ps m).isSome :=
  isSome_lookupP_updF ps n _ m

theorem isSome_addMatchCount (ps : Players) (n m : String) :
    (lookupP (addMatchCount ps n) m).isSome = (lookupP ps m).isSome :=
  isSome_lookupP_updF ps n _ m

theorem isSome_addWin (ps : Players) (n m : String) :
    (lookupP (addWin ps n) m).isSome = (lookupP ps m).isSome :=
  isSome_lookupP_updF ps n _ m

theorem teamRating_addMatchCount (ps : Players) (n : String) (t : String × String) :
    teamRating (addMatchCount ps n) t = teamRating ps t := by
  simp [teamRating, rating0_addMatchCount]

theorem teamRating_addWin (ps : Players) (n : String) (t : String × String) :
    teamRating (addWin ps n) t = teamRating ps t := by
  simp [teamRating, rating0_addWin]

/- ### Claim C1 -/

/-- C1: for every pair of teams whose average ratings are equal, the rating
engine computes `expected_team1 = 0.5`, and the resulting delta is `16.0`
when team1 won and `-16.0` when team1 did not win (`K = 32`, team strength
arithmetic mean, `expected1 = 1 / (1 + 10 ^ ((R2 - R1) / 400))`,
`delta = K * (actual1 - expected1)`). -/
theorem elo_equal_teams (ps : Players) (t1 t2 : String × String)
    (h : teamRating ps t1 = teamRating ps t2) :
    expected_team1 (teamRating ps t1) (teamRating ps t2) = 1 / 2 ∧
    rating_change (teamRating ps t1) (teamRating ps t2) true = 16 ∧
    rating_change (teamRating ps t1) (teamRating ps t2) false = -16 := by
  rw [h]
  exact ⟨expected_team1_self _, rating_change_self_true _, rating_change_self_false _⟩

/-- Concrete instance of `elo_equal_teams`: four fresh players at 1500. -/
theorem elo_equal_teams_witness :
    teamRating exPlayers exT1 = teamRating exPlayers exT2 ∧
    (expected_team1 (teamRating exPlayers exT1) (teamRating exPlayers exT2) = 1 / 2 ∧
     rating_change (teamRating exPlayers exT1) (teamRating exPlayers exT2) true = 16 ∧
     rating_change (teamRating exPlayers exT1) (teamRating exPlayers exT2) false = -16) :=
  ⟨rfl, elo_equal_teams exPlayers exT1 exT2 rfl⟩

/- ### Claim C2 -/

/-- C2: the rating delta of `update_ratings` is applied as an
equal-and-opposite pair: with four distinct participants, each team1
member gains exactly `rating_change` and each team2 member loses exactly
`rating_change`; and the sum of all ratings in the store is unchanged
(this part holds even when the four name slots repeat a player, since the
updates are applied slot by slot). -/
theorem update_ratings_equal_opposite (st : TrackerState) (t1 t2 : String × String)
    (won : Bool)
    (hnd : (st.players.map Prod.fst).Nodup)
    (h11 : (lookupP st.players t1.1).isSome = true)
    (h12 : (lookupP st.players t1.2).isSome = true)
    (h21 : (lookupP st.players t2.1).isSome = true)
    (h22 : (lookupP st.players t2.2).isSome = true) :
    totalRating (update_ratings st t1 t2 won).players = totalRating st.players ∧
    (t1.1 ≠ t1.2 → t1.1 ≠ t2.1 → t1.1 ≠ t2.2 → t1.2 ≠ t2.1 → t1.2 ≠ t2.2 → t2.1 ≠ t2.2 →
      rating0 (update_ratings st t1 t2 won).players t1.1 = rating0 st.players t1.1 +
        rating_change (teamRating st.players t1) (teamRating st.players t2) won ∧
      rating0 (update_ratings st t1 t2 won).players t1.2 = rating0 st.players t1.2 +
        rating_change (teamRating st.players t1) (teamRating st.players t2) won ∧
      rating0 (update_ratings st t1 t2 won).players t2.1 = rating0 st.players t2.1 -
        rating_change (teamRating st.players t1) (teamRating st.players t2) won ∧
      rating0 (update_ratings st t1 t2 won).players t2.2 = rating0 st.players t2.2 -
        rating_change (teamRating st.players t1) (teamRating st.players t2) won) := by
  rw [update_ratings_players]
  generalize rating_change (teamRating st.players t1) (teamRating st.players t2) won = rc
  have k1 : ((addRating st.players t1.1 rc).map Prod.fst).Nodup := by
    rw [map_fst_addRating]; exact hnd
  have k2 : ((addRating (addRating st.players t1.1 rc) t1.2 rc).map Prod.fst).Nodup := by
    rw [map_fst_addRating, map_fst_addRating]; exact hnd
  have k3 : ((addRating (addRating (addRating st.players t1.1 rc) t1.2 rc) t2.1
      (-rc)).map Prod.fst).Nodup := by
    rw [map_fst_addRating, map_fst_addRating, map_fst_addRating]; exact hnd
  have p2 : (lookupP (addRating st.players t1.1 rc) t1.2).isSome = true := by
    rw [isSome_addRating]; exact h12
  have p3 : (lookupP (addRating (addRating st.players t1.1 rc) t1.2 rc) t2.1).isSome = true := by
    rw [isSome_addRating, isSome_addRating]; exact h21
  have p4 : (lookupP (addRating (addRating (addRating st.players t1.1 rc) t1.2 rc) t2.1
      (-rc)) t2.2).isSome = true := by
    rw [isSome_addRating, isSome_addRating, isSome_addRating]; exact h22
  constructor
  · rw [totalRating_addRating _ _ _ k3 p4, totalRating_addRating _ _ _ k2 p3,
      totalRating_addRating _ _ _ k1 p2, totalRating_addRating _ _ _ hnd h11]
    ring
  · intro hab hac had hbc hbd hcd
    refine ⟨?_, ?_, ?_, ?_⟩
    · rw [rating0_addRating_ne _ _ _ _ had, rating0_addRating_ne _ _ _ _ hac,
        rating0_addRating_ne _ _ _ _ hab, rating0_addRating_self _ _ _ h11]
    · rw [rating0_addRating_ne _ _ _ _ hbd, rating0_addRating_ne _ _ _ _ hbc,
        rating0_addRating_self _ _ _ p2, rating0_addRating_ne _ _ _ _ (Ne.symm hab)]
    · rw [rating0_addRating_ne _ _ _ _ hcd, rating0_addRating_self _ _ _ p3,
        rating0_addRating_ne _ _ _ _ (Ne.symm hbc), rating0_addRating_ne _ _ _ _ (Ne.symm hac)]
      ring
    · rw [rating0_addRating_self _ _ _ p4, rating0_addRating_ne _ _ _ _ (Ne.symm hcd),
        rating0_addRating_ne _ _ _ _ (Ne.symm hbd), rating0_addRating_ne _ _ _ _ (Ne.symm had)]
      ring

/-- Concrete instance of `update_ratings_equal_opposite`: the four example
players, team1 winning. -/
theorem update_ratings_equal_opposite_witness :
    totalRating (update_ratings exState exT1 exT2 true).players = totalRating exState.players ∧
    rating0 (update_ratings exState exT1 exT2 true).players exT1.1 = rating0 exState.players exT1.1 +
      rating_change (teamRating exState.players exT1) (teamRating exState.players exT2) true ∧
    rating0 (update_ratings exState exT1 exT2 true).players exT2.1 = rating0 exState.players exT2.1 -
      rating_change (teamRating exState.players exT1) (teamRating exState.players exT2) true := by
  have h := update_ratings_equal_opposite exState exT1 exT2 true (by decide) rfl rfl rfl rfl
  have h2 := h.2 (by decide) (by decide) (by decide) (by decide) (by decide) (by decide)
  exact ⟨h.1, h2.1, h2.2.2.1⟩

/- ### Claim C8 -/

/-- C8: `add_player` is idempotent: for every identifier, if absent the
player is inserted with rating 1500, matches 0, wins 0, the snapshot is
persisted (one more write) and `true` is returned; if present, `false` is
returned, no persistence write occurs and the state is unchanged, so a
second call with the same identifier changes nothing. -/
theorem add_player_idempotent (st : TrackerState) (n : String) :
    (lookupP st.players n = none →
      (add_player st n).1 = true ∧
      lookupP (add_player st n).2.players n = some ⟨1500, 0, 0⟩ ∧
      (add_player st n).2.saves = st.saves + 1 ∧
      (add_player st n).2.«matches» = st.«matches» ∧
      ∀ m, m ≠ n → lookupP (add_player st n).2.players m = lookupP st.players m) ∧
    ((lookupP st.players n).isSome = true → add_player st n = (false, st)) ∧
    add_player (add_player st n).2 n = (false, (add_player st n).2) := by
  refine ⟨?_, ?_, ?_⟩
  · intro h
    have hn : (lookupP st.players n).isSome = false := by rw [h]; rfl
    have heq : add_player st n =
        (true, persistSnapshot { st with players := st.players ++ [(n, ⟨1500, 0, 0⟩)] }) := by
      simp [add_player, hn]
    rw [heq]
    exact ⟨rfl, lookupP_append_last_self st.players n _ h, rfl, rfl,
      fun m hm => lookupP_append_last_ne st.players n _ m hm⟩
  · intro h
    simp [add_player, h]
  · cases h : (lookupP st.players n).isSome
    · have hnone : lookupP st.players n = none := by
        cases ho : lookupP st.players n
        · rfl
        · rw [ho] at h; simp at h
      have hfirst : (add_player st n).2.players = st.players ++ [(n, ⟨1500, 0, 0⟩)] := by
        simp [add_player, h, persistSnapshot]
      have hsome : (lookupP (add_player st n).2.players n).isSome = true := by
        rw [hfirst, lookupP_append_last_self st.players n _ hnone]
        rfl
      exact add_player_of_present _ n hsome
    · have hst : add_player st n = (false, st) := by simp [add_player, h]
      rw [hst]
      exact add_player_of_present st n h

/-- Concrete instance of `add_player_idempotent`: adding a player to the
empty tracker, then adding the same name again. -/
theorem add_player_idempotent_witness :
    (add_player exEmpty "Alice").1 = true ∧
    lookupP (add_player exEmpty "Alice").2.players "Alice" = some ⟨1500, 0, 0⟩ ∧
    (add_player exEmpty "Alice").2.saves = exEmpty.saves + 1 ∧
    add_player (add_player exEmpty "Alice").2 "Alice" = (false, (add_player exEmpty "Alice").2) := by
  have h := add_player_idempotent exEmpty "Alice"
  have h1 := h.1 rfl
  exact ⟨h1.1, h1.2.1, h1.2.2.1, h.2.2⟩

/- ### Claim C6 -/

/-- C6: after `record_match` with four distinct pre-registered
participants, each participant's `matches` counter increases by exactly 1,
and exactly one team's members each gain exactly 1 win (team1 if it won,
else team2) while the other team's members' win counters are unchanged. -/
theorem record_match_counters (st : TrackerState) (now : DateTime)
    (t1 t2 : String × String) (s1 s2 : ℤ)
    (h11 : (lookupP st.players t1.1).isSome = true)
    (h12 : (lookupP st.players t1.2).isSome = true)
    (h21 : (lookupP st.players t2.1).isSome = true)
    (h22 : (lookupP st.players t2.2).isSome = true)
    (hab : t1.1 ≠ t1.2) (hac : t1.1 ≠ t2.1) (had : t1.1 ≠ t2.2)
    (hbc : t1.2 ≠ t2.1) (hbd : t1.2 ≠ t2.2) (hcd : t2.1 ≠ t2.2) :
    matches0 (record_match st now t1 t2 s1 s2).players t1.1 = matches0 st.players t1.1 + 1 ∧
    matches0 (record_match st now t1 t2 s1 s2).players t1.2 = matches0 st.players t1.2 + 1 ∧
    matches0 (record_match st now t1 t2 s1 s2).players t2.1 = matches0 st.players t2.1 + 1 ∧
    matches0 (record_match st now t1 t2 s1 s2).players t2.2 = matches0 st.players t2.2 + 1 ∧
    wins0 (record_match st now t1 t2 s1 s2).players t1.1
      = wins0 st.players t1.1 + (if team1_won s1 s2 then 1 else 0) ∧
    wins0 (record_match st now t1 t2 s1 s2).players t1.2
      = wins0 st.players t1.2 + (if team1_won s1 s2 then 1 else 0) ∧
    wins0 (record_match st now t1 t2 s1 s2).players t2.1
      = wins0 st.players t2.1 + (if team1_won s1 s2 then 0 else 1) ∧
    wins0 (record_match st now t1 t2 s1 s2).players t2.2
      = wins0 st.players t2.2 + (if team1_won s1 s2 then 0 else 1) := by
  have hens : ensurePlayers st [t1.1, t1.2, t2.1, t2.2] = st := by
    apply ensurePlayers_of_present
    intro x hx
    simp only [List.mem_cons, List.not_mem_nil, or_false] at hx
    rcases hx with rfl | rfl | rfl | rfl
    exacts [h11, h12, h21, h22]
  have pM1 : (lookupP (addMatchCount (addMatchCount (addMatchCount (addMatchCount
      st.players t1.1) t1.2) t2.1) t2.2) t1.1).isSome = true := by
    rw [isSome_addMatchCount, isSome_addMatchCount, isSome_addMatchCount,
      isSome_addMatchCount]; exact h11
  have pM2 : (lookupP (addMatchCount (addMatchCount (addMatchCount (addMatchCount
      st.players t1.1) t1.2) t2.1) t2.2) t1.2).isSome = true := by
    rw [isSome_addMatchCount, isSome_addMatchCount, isSome_addMatchCount,
      isSome_addMatchCount]; exact h12
  have pM3 : (lookupP (addMatchCount (addMatchCount (addMatchCount (addMatchCount
      st.players t1.1) t1.2) t2.1) t2.2) t2.1).isSome = true := by
    rw [isSome_addMatchCount, isSome_addMatchCount, isSome_addMatchCount,
      isSome_addMatchCount]; exact h21
  have pM4 : (lookupP (addMatchCount (addMatchCount (addMatchCount (addMatchCount
      st.players t1.1) t1.2) t2.1) t2.2) t2.2).isSome = true := by
    rw [isSome_addMatchCount, isSome_addMatchCount, isSome_addMatchCount,
      isSome_addMatchCount]; exact h22
  cases hw : team1_won s1 s2
  · simp only [record_match, hens, hw, Bool.false_eq_true, if_false,
      persistSnapshot_players, update_ratings_players, applyWins_players,
      applyMatchCounts_players, appendMatch_players,
      matches0_addRating, wins0_addRating, matches0_addWin, wins0_addMatchCount]
    refine ⟨?_, ?_, ?_, ?_, ?_, ?_, ?_, ?_⟩
    · rw [matches0_addMatchCount_ne _ _ _ had, matches0_addMatchCount_ne _ _ _ hac,
        matches0_addMatchCount_ne _ _ _ hab, matches0_addMatchCount_self _ _ h11]
    · rw [matches0_addMatchCount_ne _ _ _ hbd, matches0_addMatchCount_ne _ _ _ hbc,
        matches0_addMatchCount_self _ _ (by rw [isSome_addMatchCount]; exact h12),
        matches0_addMatchCount_ne _ _ _ (Ne.symm hab)]
    · rw [matches0_addMatchCount_ne _ _ _ hcd,
        matches0_addMatchCount_self _ _
          (by rw [isSome_addMatchCount, isSome_addMatchCount]; exact h21),
        matches0_addMatchCount_ne _ _ _ (Ne.symm hbc),
        matches0_addMatchCount_ne _ _ _ (Ne.symm hac)]
    · rw [matches0_addMatchCount_self _ _
          (by rw [isSome_addMatchCount, isSome_addMatchCount, isSome_addMatchCount]; exact h22),
        matches0_addMatchCount_ne _ _ _ (Ne.symm hcd),
        matches0_addMatchCount_ne _ _ _ (Ne.symm hbd),
        matches0_addMatchCount_ne _ _ _ (Ne.symm had)]
    · rw [wins0_addWin_ne _ _ _ had, wins0_addWin_ne _ _ _ hac,
        wins0_addMatchCount, wins0_addMatchCount, wins0_addMatchCount, wins0_addMatchCount]
      omega
    · rw [wins0_addWin_ne _ _ _ hbd, wins0_addWin_ne _ _ _ hbc,
        wins0_addMatchCount, wins0_addMatchCount, wins0_addMatchCount, wins0_addMatchCount]
      omega
    · rw [wins0_addWin_ne _ _ _ hcd, wins0_addWin_self _ _ pM3,
        wins0_addMatchCount, wins0_addMatchCount, wins0_addMatchCount, wins0_addMatchCount]
    · rw [wins0_addWin_self _ _ (by rw [isSome_addWin]; exact pM4),
        wins0_addWin_ne _ _ _ (Ne.symm hcd),
        wins0_addMatchCount, wins0_addMatchCount, wins0_addMatchCount, wins0_addMatchCount]
  · simp only [record_match, hens, hw, if_true,
      persistSnapshot_players, update_ratings_players, applyWins_players,
      applyMatchCounts_players, appendMatch_players,
      matches0_addRating, wins0_addRating, matches0_addWin, wins0_addMatchCount]
    refine ⟨?_, ?_, ?_, ?_, ?_, ?_, ?_, ?_⟩
    · rw [matches0_addMatchCount_ne _ _ _ had, matches0_addMatchCount_ne _ _ _ hac,
        matches0_addMatchCount_ne _ _ _ hab, matches0_addMatchCount_self _ _ h11]
    · rw [matches0_addMatchCount_ne _ _ _ hbd, matches0_addMatchCount_ne _ _ _ hbc,
        matches0_addMatchCount_self _ _ (by rw [isSome_addMatchCount]; exact h12),
        matches0_addMatchCount_ne _ _ _ (Ne.symm hab)]
    · rw [matches0_addMatchCount_ne _ _ _ hcd,
        matches0_addMatchCount_self _ _
          (by rw [isSome_addMatchCount, isSome_addMatchCount]; exact h21),
        matches0_addMatchCount_ne _ _ _ (Ne.symm hbc),
        matches0_addMatchCount_ne _ _ _ (Ne.symm hac)]
    · rw [matches0_addMatchCount_self _ _
          (by rw [isSome_addMatchCount, isSome_addMatchCount, isSome_addMatchCount]; exact h22),
        matches0_addMatchCount_ne _ _ _ (Ne.symm hcd),
        matches0_addMatchCount_ne _ _ _ (Ne.symm hbd),
        matches0_addMatchCount_ne _ _ _ (Ne.symm had)]
    · rw [wins0_addWin_ne _ _ _ hab, wins0_addWin_self _ _ pM1,
        wins0_addMatchCount, wins0_addMatchCount, wins0_addMatchCount, wins0_addMatchCount]
    · rw [wins0_addWin_self _ _ (by rw [isSome_addWin]; exact pM2),
        wins0_addWin_ne _ _ _ (Ne.symm hab),
        wins0_addMatchCount, wins0_addMatchCount, wins0_addMatchCount, wins0_addMatchCount]
    · rw [wins0_addWin_ne _ _ _ (Ne.symm hbc), wins0_addWin_ne _ _ _ (Ne.symm hac),
        wins0_addMatchCount, wins0_addMatchCount, wins0_addMatchCount, wins0_addMatchCount]
      omega
    · rw [wins0_addWin_ne _ _ _ (Ne.symm hbd), wins0_addWin_ne _ _ _ (Ne.symm had),
        wins0_addMatchCount, wins0_addMatchCount, wins0_addMatchCount, wins0_addMatchCount]
      omega

/-- Concrete instance of `record_match_counters`: the example match won by
team1 21 to 15. -/
theorem record_match_counters_witness :
    matches0 (record_match exState exDate exT1 exT2 21 15).players "Alice"
      = matches0 exState.players "Alice" + 1 ∧
    wins0 (record_match exState exDate exT1 exT2 21 15).players "Alice"
      = wins0 exState.players "Alice" + (if team1_won 21 15 then 1 else 0) ∧
    wins0 (record_match exState exDate exT1 exT2 21 15).players "Carol"
      = wins0 exState.players "Carol" + (if team1_won 21 15 then 0 else 1) := by
  have h := record_match_counters exState exDate exT1 exT2 21 15 rfl rfl rfl rfl
    (by decide) (by decide) (by decide) (by decide) (by decide) (by decide)
  exact ⟨h.1, h.2.2.2.2.1, h.2.2.2.2.2.2.1⟩

/- ### Claim C7 -/

/-- C7: a tied match (`team1_score == team2_score`) makes `team1_won`
false, so each team2 member is credited with +1 wins, team1 members' win
counters are unchanged, and each team1 member receives the losing-side
rating adjustment `rating_change(..., false)`, which is negative. -/
theorem record_match_tie (st : TrackerState) (now : DateTime)
    (t1 t2 : String × String) (s : ℤ)
    (h11 : (lookupP st.players t1.1).isSome = true)
    (h12 : (lookupP st.players t1.2).isSome = true)
    (h21 : (lookupP st.players t2.1).isSome = true)
    (h22 : (lookupP st.players t2.2).isSome = true)
    (hab : t1.1 ≠ t1.2) (hac : t1.1 ≠ t2.1) (had : t1.1 ≠ t2.2)
    (hbc : t1.2 ≠ t2.1) (hbd : t1.2 ≠ t2.2) (hcd : t2.1 ≠ t2.2) :
    team1_won s s = false ∧
    wins0 (record_match st now t1 t2 s s).players t2.1 = wins0 st.players t2.1 + 1 ∧
    wins0 (record_match st now t1 t2 s s).players t2.2 = wins0 st.players t2.2 + 1 ∧
    wins0 (record_match st now t1 t2 s s).players t1.1 = wins0 st.players t1.1 ∧
    wins0 (record_match st now t1 t2 s s).players t1.2 = wins0 st.players t1.2 ∧
    rating0 (record_match st now t1 t2 s s).players t1.1 = rating0 st.players t1.1 +
      rating_change (teamRating st.players t1) (teamRating st.players t2) false ∧
    rating0 (record_match st now t1 t2 s s).players t1.2 = rating0 st.players t1.2 +
      rating_change (teamRating st.players t1) (teamRating st.players t2) false ∧
    rating_change (teamRating st.players t1) (teamRating st.players t2) false < 0 := by
  have hw : team1_won s s = false := by simp [team1_won]
  have hens : ensurePlayers st [t1.1, t1.2, t2.1, t2.2] = st := by
    apply ensurePlayers_of_present
    intro x hx
    simp only [List.mem_cons, List.not_mem_nil, or_false] at hx
    rcases hx with rfl | rfl | rfl | rfl
    exacts [h11, h12, h21, h22]
  have pM3 : (lookupP (addMatchCount (addMatchCount (addMatchCount (addMatchCount
      st.players t1.1) t1.2) t2.1) t2.2) t2.1).isSome = true := by
    rw [isSome_addMatchCount, isSome_addMatchCount, isSome_addMatchCount,
      isSome_addMatchCount]; exact h21
  have pM4 : (lookupP (addWin (addMatchCount (addMatchCount (addMatchCount (addMatchCount
      st.players t1.1) t1.2) t2.1) t2.2) t2.1) t2.2).isSome = true := by
    rw [isSome_addWin, isSome_addMatchCount, isSome_addMatchCount, isSome_addMatchCount,
      isSome_addMatchCount]; exact h22
  have pW1 : (lookupP (addWin (addWin (addMatchCount (addMatchCount (addMatchCount
      (addMatchCount st.players t1.1) t1.2) t2.1) t2.2) t2.1) t2.2) t1.1).isSome = true := by
    rw [isSome_addWin, isSome_addWin, isSome_addMatchCount, isSome_addMatchCount,
      isSome_addMatchCount, isSome_addMatchCount]; exact h11
  have pW2 : (lookupP (addRating (addWin (addWin (addMatchCount (addMatchCount
      (addMatchCount (addMatchCount st.players t1.1) t1.2) t2.1) t2.2) t2.1) t2.2) t1.1
      (rating_change
        (teamRating (addWin (addWin (addMatchCount (addMatchCount (addMatchCount
          (addMatchCount st.players t1.1) t1.2) t2.1) t2.2) t2.1) t2.2) t1)
        (teamRating (addWin (addWin (addMatchCount (addMatchCount (addMatchCount
          (addMatchCount st.players t1.1) t1.2) t2.1) t2.2) t2.1) t2.2) t2)
        false)) t1.2).isSome = true := by
    rw [isSome_addRating, isSome_addWin, isSome_addWin, isSome_addMatchCount,
      isSome_addMatchCount, isSome_addMatchCount, isSome_addMatchCount]; exact h12
  refine ⟨hw, ?_⟩
  simp only [record_match, hens, hw, Bool.false_eq_true, if_false,
    persistSnapshot_players, update_ratings_players, applyWins_players,
    applyMatchCounts_players, appendMatch_players]
  refine ⟨?_, ?_, ?_, ?_, ?_, ?_, ?_⟩
  · rw [wins0_addRating, wins0_addRating, wins0_addRating, wins0_addRating,
      wins0_addWin_ne _ _ _ hcd, wins0_addWin_self _ _ pM3,
      wins0_addMatchCount, wins0_addMatchCount, wins0_addMatchCount, wins0_addMatchCount]
  · rw [wins0_addRating, wins0_addRating, wins0_addRating, wins0_addRating,
      wins0_addWin_self _ _ pM4, wins0_addWin_ne _ _ _ (Ne.symm hcd),
      wins0_addMatchCount, wins0_addMatchCount, wins0_addMatchCount, wins0_addMatchCount]
  · rw [wins0_addRating, wins0_addRating, wins0_addRating, wins0_addRating,
      wins0_addWin_ne _ _ _ had, wins0_addWin_ne _ _ _ hac,
      wins0_addMatchCount, wins0_addMatchCount, wins0_addMatchCount, wins0_addMatchCount]
  · rw [wins0_addRating, wins0_addRating, wins0_addRating, wins0_addRating,
      wins0_addWin_ne _ _ _ hbd, wins0_addWin_ne _ _ _ hbc,
      wins0_addMatchCount, wins0_addMatchCount, wins0_addMatchCount, wins0_addMatchCount]
  · rw [rating0_addRating_ne _ _ _ _ had, rating0_addRating_ne _ _ _ _ hac,
      rating0_addRating_ne _ _ _ _ hab, rating0_addRating_self _ _ _ pW1]
    simp only [rating0_addWin, rating0_addMatchCount, teamRating_addWin,
      teamRating_addMatchCount]
  · rw [rating0_addRating_ne _ _ _ _ hbd, rating0_addRating_ne _ _ _ _ hbc,
      rating0_addRating_self _ _ _ pW2, rating0_addRating_ne _ _ _ _ (Ne.symm hab)]
    simp only [rating0_addWin, rating0_addMatchCount, teamRating_addWin,
      teamRating_addMatchCount]
  · exact rating_change_false_neg _ _

/-- Concrete instance of `record_match_tie`: the example match tied 15 all. -/
theorem record_match_tie_witness :
    team1_won 15 15 = false ∧
    wins0 (record_match exState exDate exT1 exT2 15 15).players "Carol"
      = wins0 exState.players "Carol" + 1 ∧
    wins0 (record_match exState exDate exT1 exT2 15 15).players "Alice"
      = wins0 exState.players "Alice" ∧
    rating0 (record_match exState exDate exT1 exT2 15 15).players "Alice"
      = rating0 exState.players "Alice" +
        rating_change (teamRating exState.players exT1) (teamRating exState.players exT2) false ∧
    rating_change (teamRating exState.players exT1) (teamRating exState.players exT2) false < 0 := by
  have h := record_match_tie exState exDate exT1 exT2 15 rfl rfl rfl rfl
    (by decide) (by decide) (by decide) (by decide) (by decide) (by decide)
  exact ⟨h.1, h.2.1, h.2.2.2.1, h.2.2.2.2.2.1, h.2.2.2.2.2.2.2⟩

/- ### Pairer fixtures -/

/-- Eight players in strictly descending rating order. -/
def exPool : List (String × PlayerData) :=
  [("p1", ⟨1800, 0, 0⟩), ("p2", ⟨1750, 0, 0⟩), ("p3", ⟨1700, 0, 0⟩),
   ("p4", ⟨1650, 0, 0⟩), ("p5", ⟨1600, 0, 0⟩), ("p6", ⟨1550, 0, 0⟩),
   ("p7", ⟨1500, 0, 0⟩), ("p8", ⟨1450, 0, 0⟩)]

/- ### Lemmas on the pairing generator -/

theorem popSelect_spec {α : Type} (pool : List α) (h : pool ≠ []) :
    ∃ p rest, popSelect pool = some (p, rest) ∧ rest.length + 1 = pool.length ∧
      pool.Perm (p :: rest) := by
  unfold popSelect
  by_cases he : pool.length % 2 = 0
  · rw [if_pos he]
    cases pool with
    | nil => exact absurd rfl h
    | cons q rest => exact ⟨q, rest, rfl, rfl, List.Perm.refl _⟩
  · rw [if_neg he]
    cases hrev : pool.reverse with
    | nil =>
      have hnil : pool = [] := by
        have := congrArg List.reverse hrev
        simpa using this
      exact absurd hnil h
    | cons p rest =>
      have hpool : pool = rest.reverse ++ [p] := by
        have h1 : pool.reverse.reverse = (p :: rest).reverse := congrArg List.reverse hrev
        simpa [List.reverse_cons] using h1
      refine ⟨p, rest.reverse, rfl, ?_, ?_⟩
      · rw [hpool]
        simp
      · rw [hpool]
        exact List.perm_append_comm

theorem drawFour_spec {α : Type} (pool : List α) (h : 4 ≤ pool.length) :
    ∃ p0 p1 p2 p3 rest, drawFour pool = some ((p0, p1, p2, p3), rest) ∧
      rest.length + 4 = pool.length ∧ pool.Perm (p0 :: p1 :: p2 :: p3 :: rest) := by
  obtain ⟨p0, r0, e0, l0, P0⟩ := popSelect_spec pool
    (List.ne_nil_of_length_pos (by omega))
  obtain ⟨p1, r1, e1, l1, P1⟩ := popSelect_spec r0
    (List.ne_nil_of_length_pos (by omega))
  obtain ⟨p2, r2, e2, l2, P2⟩ := popSelect_spec r1
    (List.ne_nil_of_length_pos (by omega))
  obtain ⟨p3, r3, e3, l3, P3⟩ := popSelect_spec r2
    (List.ne_nil_of_length_pos (by omega))
  refine ⟨p0, p1, p2, p3, r3, ?_, by omega, ?_⟩
  · simp only [drawFour, e0, e1, e2, e3]
  · have s3 : r1.Perm (p2 :: p3 :: r3) := P2.trans (P3.cons p2)
    have s2 : r0.Perm (p1 :: p2 :: p3 :: r3) := P1.trans (s3.cons p1)
    exact P0.trans (s2.cons p0)

theorem pairLoop_spec : ∀ (n : ℕ) (pool : List (String × PlayerData)),
    4 * n ≤ pool.length →
    ∃ (L : List Pairing) (rest : List (String × PlayerData)),
      pairLoop n pool = some L ∧ L.length = n ∧
      rest.length + 4 * n = pool.length ∧
      (pool.map Prod.fst).Perm (flattenPairings L ++ rest.map Prod.fst) := by
  intro n
  induction n with
  | zero =>
    intro pool _
    exact ⟨[], pool, rfl, rfl, by omega, by simp [flattenPairings]⟩
  | succ k ih =>
    intro pool h
    obtain ⟨p0, p1, p2, p3, rest, he, hl, hp⟩ := drawFour_spec pool (by omega)
    obtain ⟨L, fin, heL, hLlen, hflen, hperm⟩ := ih rest (by omega)
    refine ⟨((p0.1, p3.1), (p1.1, p2.1)) :: L, fin, ?_, by simp [hLlen], by omega, ?_⟩
    · simp only [pairLoop, he, heL]
    · have h1 : (pool.map Prod.fst).Perm
          (p0.1 :: p1.1 :: p2.1 :: p3.1 :: rest.map Prod.fst) := by
        simpa using hp.map Prod.fst
      have h2 : (p1.1 :: p2.1 :: p3.1 :: rest.map Prod.fst).Perm
          (p3.1 :: p1.1 :: p2.1 :: (flattenPairings L ++ fin.map Prod.fst)) := by
        have hm : (p1.1 :: p2.1 :: p3.1 :: rest.map Prod.fst).Perm
            (p3.1 :: p1.1 :: p2.1 :: rest.map Prod.fst) := by
          have := @List.perm_middle _ p3.1 [p1.1, p2.1] (rest.map Prod.fst)
          simpa using this
        exact hm.trans (((hperm.cons p2.1).cons p1.1).cons p3.1)
      simp only [flattenPairings, List.cons_append]
      exact h1.trans (h2.cons p0.1)

theorem generate_pairings_ok (players : List (String × PlayerData)) (N : ℤ)
    (h : ¬ ((players.length : ℤ) < N * 4)) :
    ∃ L, generate_pairings players N = Except.ok L := by
  have hlen : 4 * N.toNat ≤ (sortPlayers players).length := by
    rw [sortPlayers, List.length_mergeSort]
    omega
  obtain ⟨L, rest, he, _, _, _⟩ := pairLoop_spec N.toNat (sortPlayers players) hlen
  refine ⟨L, ?_⟩
  simp [generate_pairings, h, he]

/- ### Claim C3 -/

/-- C3: `generate_pairings` fails if and only if the number of players is
strictly less than `num_matches * 4`, and the insufficient-players error is
the only failure; with at least `4 * N` players it always returns a list of
pairings. -/
theorem generate_pairings_error_iff (players : List (String × PlayerData)) (N : ℤ) :
    ((∃ e, generate_pairings players N = Except.error e) ↔ (players.length : ℤ) < N * 4) ∧
    (∀ e, generate_pairings players N = Except.error e →
      e = PairError.insufficientPlayers) := by
  by_cases hlt : (players.length : ℤ) < N * 4
  · refine ⟨⟨fun _ => hlt, fun _ => ⟨PairError.insufficientPlayers, ?_⟩⟩, ?_⟩
    · simp [generate_pairings, hlt]
    · intro e he
      simp [generate_pairings, hlt] at he
      exact he.symm
  · obtain ⟨L, hok⟩ := generate_pairings_ok players N hlt
    refine ⟨⟨fun he => ?_, fun hc => absurd hc hlt⟩, fun e he => ?_⟩
    · obtain ⟨e, he⟩ := he
      rw [hok] at he
      exact absurd he (by simp)
    · rw [hok] at he
      exact absurd he (by simp)

/-- Concrete instance of `generate_pairings_error_iff`: eight players and
three requested matches fail with the insufficient-players error. -/
theorem generate_pairings_error_iff_witness :
    (∃ e, generate_pairings exPool 3 = Except.error e) ∧
    (∀ e, generate_pairings exPool 3 = Except.error e →
      e = PairError.insufficientPlayers) := by
  have h := generate_pairings_error_iff exPool 3
  exact ⟨h.1.mpr (by decide), h.2⟩

/- ### Claim C10 -/

/-- C10: for every match count at most 0, `generate_pairings` returns the
empty sequence and raises no error, whatever the player snapshot: the
insufficient-players guard cannot fire and the match loop runs zero
times. -/
theorem generate_pairings_nonpositive (players : List (String × PlayerData)) (N : ℤ)
    (h : N ≤ 0) : generate_pairings players N = Except.ok [] := by
  have hguard : ¬ ((players.length : ℤ) < N * 4) := by omega
  have ht : N.toNat = 0 := Int.toNat_of_nonpos h
  simp [generate_pairings, hguard, ht, pairLoop]

/-- Concrete instance of `generate_pairings_nonpositive`: minus one match
on an empty snapshot. -/
theorem generate_pairings_nonpositive_witness :
    generate_pairings [] (-1) = Except.ok [] :=
  generate_pairings_nonpositive [] (-1) (by decide)

theorem specPop_eq_popSelect (pool : List String) : specPop pool = popSelect pool := by
  by_cases he : pool.length % 2 = 0
  · cases pool with
    | nil => rfl
    | cons q rest =>
      simp only [List.length_cons] at he
      simp [specPop, popSelect, he]
  · cases hrev : pool.reverse with
    | nil =>
      have hnil : pool = [] := by simpa using congrArg List.reverse hrev
      subst hnil
      simp at he
    | cons p rest =>
      simp [specPop, popSelect, he, hrev]

theorem popSelect_map {α β : Type} (f : α → β) (pool : List α) :
    popSelect (pool.map f) =
      (popSelect pool).map (fun pr => (f pr.1, pr.2.map f)) := by
  unfold popSelect
  rw [List.length_map]
  by_cases he : pool.length % 2 = 0
  · rw [if_pos he, if_pos he]
    cases pool <;> simp
  · rw [if_neg he, if_neg he]
    cases hrev : pool.reverse with
    | nil =>
      rw [← List.map_reverse, hrev]
      simp
    | cons p rest =>
      rw [← List.map_reverse, hrev]
      simp [List.map_reverse]

theorem specDrawMatch_map (pool : List (String × PlayerData)) :
    specDrawMatch (pool.map Prod.fst) =
      (drawFour pool).map (fun pr =>
        (((pr.1.1.1, pr.1.2.2.2.1), (pr.1.2.1.1, pr.1.2.2.1.1)), pr.2.map Prod.fst)) := by
  cases e0 : popSelect pool with
  | none => simp [specDrawMatch, drawFour, specPop_eq_popSelect, popSelect_map, e0]
  | some pr0 =>
    obtain ⟨p0, r0⟩ := pr0
    cases e1 : popSelect r0 with
    | none => simp [specDrawMatch, drawFour, specPop_eq_popSelect, popSelect_map, e0, e1]
    | some pr1 =>
      obtain ⟨p1, r1⟩ := pr1
      cases e2 : popSelect r1 with
      | none =>
        simp [specDrawMatch, drawFour, specPop_eq_popSelect, popSelect_map, e0, e1, e2]
      | some pr2 =>
        obtain ⟨p2, r2⟩ := pr2
        cases e3 : popSelect r2 with
        | none =>
          simp [specDrawMatch, drawFour, specPop_eq_popSelect, popSelect_map, e0, e1, e2, e3]
        | some pr3 =>
          obtain ⟨p3, r3⟩ := pr3
          simp [specDrawMatch, drawFour, specPop_eq_popSelect, popSelect_map, e0, e1, e2, e3]

theorem spec_pairings_eq_pairLoop : ∀ (n : ℕ) (pool : List (String × PlayerData)),
    spec_pairings n (pool.map Prod.fst) = pairLoop n pool := by
  intro n
  induction n with
  | zero => intro pool; rfl
  | succ k ih =>
    intro pool
    cases e : drawFour pool with
    | none => simp [spec_pairings, pairLoop, specDrawMatch_map, e]
    | some pr =>
      obtain ⟨⟨p0, p1, p2, p3⟩, rest⟩ := pr
      cases eL : pairLoop k rest with
      | none => simp [spec_pairings, pairLoop, specDrawMatch_map, e, ih rest, eL]
      | some tail => simp [spec_pairings, pairLoop, specDrawMatch_map, e, ih rest, eL]

/- ### Claim C4 -/

/-- C4: refinement of the pairing algorithm against the specification
text: on the rating-sorted pool, `generate_pairings` draws each match's
four players by re-evaluating the pool-size parity before every single pop
(front when even, back when odd) and forms `team1 = (p0, p3)`,
`team2 = (p1, p2)` from the draws in order — its output coincides with the
spec-side generator `spec_pairings` run on the sorted identifier pool. -/
theorem generate_pairings_refines_spec (players : List (String × PlayerData)) (N : ℕ)
    (h : 4 * N ≤ players.length) :
    (generate_pairings players (N : ℤ)).toOption =
      spec_pairings N ((sortPlayers players).map Prod.fst) := by
  rw [spec_pairings_eq_pairLoop]
  have hguard : ¬ ((players.length : ℤ) < (N : ℤ) * 4) := by omega
  have hlen : 4 * ((N : ℤ)).toNat ≤ (sortPlayers players).length := by
    rw [sortPlayers, List.length_mergeSort]
    omega
  obtain ⟨L, rest, he, _, _, _⟩ := pairLoop_spec _ _ hlen
  have hN : ((N : ℤ)).toNat = N := by omega
  rw [hN] at he
  simp [generate_pairings, hguard, hN, he, Except.toOption]

/-- Concrete instance of `generate_pairings_refines_spec`: two matches from
the eight-player pool. -/
theorem generate_pairings_refines_spec_witness :
    (generate_pairings exPool ((2 : ℕ) : ℤ)).toOption =
      spec_pairings 2 ((sortPlayers exPool).map Prod.fst) :=
  generate_pairings_refines_spec exPool 2 (by decide)

/- ### Claim C5 -/

/-- C5: on a pool of exactly `4 * N` players with distinct names,
`generate_pairings` consumes the entire pool: it returns exactly N
pairings, the multiset of drawn names is exactly the set of player names,
and no name is drawn twice (hence each match's two teams are disjoint). -/
theorem generate_pairings_partition (players : List (String × PlayerData)) (N : ℕ)
    (hlen : players.length = 4 * N)
    (hnd : (players.map Prod.fst).Nodup) :
    ∃ L, generate_pairings players (N : ℤ) = Except.ok L ∧ L.length = N ∧
      (flattenPairings L).Perm (players.map Prod.fst) ∧ (flattenPairings L).Nodup := by
  have hguard : ¬ ((players.length : ℤ) < (N : ℤ) * 4) := by
    rw [hlen]; omega
  have hsl : (sortPlayers players).length = 4 * N := by
    rw [sortPlayers, List.length_mergeSort, hlen]
  have hs4 : 4 * ((N : ℤ)).toNat ≤ (sortPlayers players).length := by
    rw [hsl]; omega
  obtain ⟨L, rest, he, hLlen, hrlen, hperm⟩ := pairLoop_spec _ _ hs4
  have hN : ((N : ℤ)).toNat = N := by omega
  rw [hN] at he hLlen hrlen
  have hrest : rest = [] := List.eq_nil_of_length_eq_zero (by omega)
  subst hrest
  simp only [List.map_nil, List.append_nil] at hperm
  have hsortperm : ((sortPlayers players).map Prod.fst).Perm (players.map Prod.fst) :=
    (List.mergeSort_perm players _).map Prod.fst
  have hfinal : (flattenPairings L).Perm (players.map Prod.fst) :=
    hperm.symm.trans hsortperm
  refine ⟨L, ?_, hLlen, hfinal, (hfinal.symm).nodup hnd⟩
  simp [generate_pairings, hguard, hN, he]

/-- Concrete instance of `generate_pairings_partition`: two matches from
the eight-player pool. -/
theorem generate_pairings_partition_witness :
    ∃ L, generate_pairings exPool ((2 : ℕ) : ℤ) = Except.ok L ∧ L.length = 2 ∧
      (flattenPairings L).Perm (exPool.map Prod.fst) ∧ (flattenPairings L).Nodup :=
  generate_pairings_partition exPool 2 (by decide) (by decide)

/- ### Lemmas on the date round-trip -/

theorem digitChar_isDigit : ∀ d, d < 10 → (Nat.digitChar d).isDigit = true := by decide

theorem digitChar_toNat : ∀ d, d < 10 → (Nat.digitChar d).toNat = 48 + d := by decide

theorem parse2_pad2 (n : ℕ) (h : n < 100) (rest : List Char) :
    parse2 (pad2 n ++ rest) = some (n, rest) := by
  have h1 : n / 10 < 10 := by omega
  have h2 : n % 10 < 10 := by omega
  simp [pad2, parse2, digitChar_isDigit _ h1, digitChar_isDigit _ h2,
    digitChar_toNat _ h1, digitChar_toNat _ h2]
  omega

theorem parse4_pad4 (n : ℕ) (h : n < 10000) (rest : List Char) :
    parse4 (pad4 n ++ rest) = some (n, rest) := by
  rw [pad4, List.append_assoc]
  simp [parse4, parse2_pad2 (n / 100) (by omega), parse2_pad2 (n % 100) (by omega)]
  omega

theorem digitsVal_cons (acc : ℕ) (c : Char) (cs : List Char) :
    digitsVal acc (c :: cs) = digitsVal (acc * 10 + (c.toNat - 48)) cs := rfl

theorem digitsVal_nil (acc : ℕ) : digitsVal acc [] = acc := rfl

theorem digitsVal_pad2_append (acc n : ℕ) (h : n < 100) (rest : List Char) :
    digitsVal acc (pad2 n ++ rest) = digitsVal (acc * 100 + n) rest := by
  have h1 : n / 10 < 10 := by omega
  have h2 : n % 10 < 10 := by omega
  rw [pad2, List.cons_append, List.cons_append, List.nil_append,
    digitsVal_cons, digitsVal_cons, digitChar_toNat _ h1, digitChar_toNat _ h2]
  congr 1
  omega

theorem digitsVal_pad6 (n : ℕ) (h : n < 1000000) : digitsVal 0 (pad6 n) = n := by
  have hsplit : pad6 n = pad2 (n / 10000) ++ (pad2 (n / 100 % 100) ++ (pad2 (n % 100) ++ [])) := by
    simp [pad6]
  rw [hsplit, digitsVal_pad2_append _ _ (by omega), digitsVal_pad2_append _ _ (by omega),
    digitsVal_pad2_append _ _ (by omega), digitsVal_nil]
  omega

theorem pad2_all_isDigit (n : ℕ) (h : n < 100) : (pad2 n).all Char.isDigit = true := by
  simp [pad2, digitChar_isDigit _ (by omega : n / 10 < 10),
    digitChar_isDigit _ (by omega : n % 10 < 10)]

theorem pad6_length (n : ℕ) : (pad6 n).length = 6 := by
  simp [pad6, pad2]

theorem parseFrac_pad6 (n : ℕ) (h : n < 1000000) :
    parseFrac ('.' :: pad6 n) = some n := by
  have hall : (pad6 n).all Char.isDigit = true := by
    simp [pad6, List.all_append, pad2_all_isDigit _ (by omega : n / 10000 < 100),
      pad2_all_isDigit _ (by omega : n / 100 % 100 < 100),
      pad2_all_isDigit _ (by omega : n % 100 < 100)]
  simp [parseFrac, pad6_length, hall, digitsVal_pad6 n h]

theorem parse2_pad2_nil (n : ℕ) (h : n < 100) : parse2 (pad2 n) = some (n, []) := by
  have h2 := parse2_pad2 n h []
  simpa using h2

theorem daysInMonth_le (y m : ℕ) : daysInMonth y m ≤ 31 := by
  unfold daysInMonth
  split
  · split <;> omega
  · split <;> omega

theorem fromisoformat_isoformat (d : DateTime) (h : isValidDT d = true) :
    fromisoformat (isoformat d) = some d := by
  have hb := h
  simp only [isValidDT, decide_eq_true_eq] at hb
  obtain ⟨hy1, hy2, hmo1, hmo2, hd1, hd2, hhh, hmi, hss, hmic⟩ := hb
  have hd31 : d.day ≤ 31 := le_trans hd2 (daysInMonth_le d.year d.month)
  rw [fromisoformat]
  have hdata : (isoformat d).data = isoformatChars d := rfl
  rw [hdata, isoformatChars]
  by_cases hm : d.microsecond = 0
  · have heq : (⟨d.year, d.month, d.day, d.hour, d.minute, d.second, 0⟩ : DateTime) = d := by
      rw [← hm]
    simp only [hm, if_pos]
    simp [fromisoformatChars, parse4_pad4 d.year (by omega), expectChar,
      parse2_pad2 d.month (by omega), parse2_pad2 d.day (by omega),
      parse2_pad2 d.hour (by omega), parse2_pad2 d.minute (by omega),
      parse2_pad2 d.second (by omega), parse2_pad2_nil d.second (by omega),
      parseFrac, checkValid, heq, h]
  · simp only [hm, if_neg, if_false]
    simp [fromisoformatChars, parse4_pad4 d.year (by omega), expectChar,
      parse2_pad2 d.month (by omega), parse2_pad2 d.day (by omega),
      parse2_pad2 d.hour (by omega), parse2_pad2 d.minute (by omega),
      parse2_pad2 d.second (by omega), parseFrac_pad6 d.microsecond (by omega),
      checkValid, h]

theorem loadMatches_canonical : ∀ (ms : List StoredMatch),
    (∀ mm ∈ ms, ∃ d, isValidDT d = true ∧ mm.date = isoformat d) →
    ∃ mems, loadMatches ms = some mems ∧
      mems.map (fun mm => (⟨isoformat mm.date, mm.team1_players, mm.team2_players,
        mm.team1_score, mm.team2_score⟩ : StoredMatch)) = ms := by
  intro ms
  induction ms with
  | nil => intro _; exact ⟨[], rfl, rfl⟩
  | cons m rest ih =>
    intro h
    obtain ⟨d, hvd, hdate⟩ := h m (List.mem_cons_self m rest)
    obtain ⟨mems, hload, hmap⟩ := ih (fun x hx => h x (List.mem_cons_of_mem m hx))
    have hparse : fromisoformat m.date = some d := by
      rw [hdate]
      exact fromisoformat_isoformat d hvd
    refine ⟨⟨d, m.team1_players, m.team2_players, m.team1_score, m.team2_score⟩ :: mems,
      ?_, ?_⟩
    · simp [loadMatches, hparse, hload]
    · simp only [List.map_cons, hmap]
      rw [← hdate]

/- ### Store fixtures -/

/-- A store whose single match carries a space-separated timestamp, a form
`datetime.fromisoformat` accepts (any single separator character) but
`datetime.isoformat` never emits. -/
def exStoreSpace : StoredStore :=
  ⟨[("Alice", ⟨1516, 1, 1⟩), ("Bob", ⟨1516, 1, 1⟩),
    ("Carol", ⟨1484, 1, 0⟩), ("Dave", ⟨1484, 1, 0⟩)],
   [⟨"2024-01-02 03:04:05", ("Alice", "Bob"), ("Carol", "Dave"), 21, 15⟩]⟩

/-- The same store with the canonical `T` separator. -/
def exStoreT : StoredStore :=
  ⟨[("Alice", ⟨1516, 1, 1⟩), ("Bob", ⟨1516, 1, 1⟩),
    ("Carol", ⟨1484, 1, 0⟩), ("Dave", ⟨1484, 1, 0⟩)],
   [⟨"2024-01-02T03:04:05", ("Alice", "Bob"), ("Carol", "Dave"), 21, 15⟩]⟩

/- ### Claim C9 -/

/-- C9 as stated is refuted: the store `exStoreSpace` loads successfully,
but saving re-serializes its space-separated timestamp with the canonical
`T` separator, so loading and then saving does not reproduce the stored
record. -/
theorem save_load_not_identity :
    (load_data exStoreSpace).map save_data = some exStoreT ∧
    decide ((load_data exStoreSpace).map save_data = some exStoreSpace) = false := by
  constructor
  · rfl
  · rfl

/-- C9 amended: for every durable store whose match timestamps are
canonical `datetime.isoformat` outputs of valid datetimes, loading and then
saving without modification reproduces exactly the stored record (players
verbatim, timestamps re-serialized to the same string). -/
theorem save_load_roundtrip_canonical (st : StoredStore)
    (h : ∀ mm ∈ st.«matches», ∃ d, isValidDT d = true ∧ mm.date = isoformat d) :
    ∃ m, load_data st = some m ∧ save_data m = st := by
  obtain ⟨mems, hload, hmap⟩ := loadMatches_canonical st.«matches» h
  refine ⟨⟨st.players, mems⟩, ?_, ?_⟩
  · simp [load_data, hload]
  · simp [save_data, hmap]

/-- Concrete instance of `save_load_roundtrip_canonical`: the canonical
example store round-trips exactly. -/
theorem save_load_roundtrip_canonical_witness :
    ∃ m, load_data exStoreT = some m ∧ save_data m = exStoreT :=
  save_load_roundtrip_canonical exStoreT (by
    intro mm hmm
    simp only [exStoreT, List.mem_cons, List.not_mem_nil, or_false] at hmm
    subst hmm
    exact ⟨⟨2024, 1, 2, 3, 4, 5, 0⟩, by decide, by rfl⟩)
